import Mathlib

/-!
# Verification of the coffee-tool API core

A shallow embedding of the bag/brew aggregation, validation and best-brew
logic of `src/app.ts` (and the compiled `dist/app.js`, which additionally
contains the `GET /feed/brews` handler), together with theorems settling
the specification claims.

Modelling conventions:
* JavaScript numbers that the code actually produces on the validated paths
  are finite; they are modelled as `ℚ`.  `Number.isInteger q` becomes
  `q.den = 1`.
* Timestamps (`Date` values) are modelled as integer milliseconds (`ℤ`).
* A raw optional numeric request field is modelled by the codomain of
  `parseOptionalNumber` in the source: `null`/`undefined`/`""` collapse to
  `ParsedNumber.null`, a non-finite parse to `ParsedNumber.nan`, and a
  finite parse to `ParsedNumber.num q`.
* A raw date input is modelled by the outcome of `new Date(x)`:
  `DateInput.valid ms` when the parse succeeds, `DateInput.invalid` when it
  yields an Invalid Date (`Number.isNaN(getTime())`).
* The relational store is a pair of lists of rows; a drizzle `update`
  becomes a `List.map`, a filtered `select` a `List.filter`, `returning`
  the list of updated rows, and `orderBy` a `List.mergeSort` with the
  corresponding comparator.
* `db.transaction` in drizzle commits when its callback returns normally
  and rolls back only when the callback throws.  The only transaction in
  the source (the best-brew handler) never throws, so both of its updates
  always commit; the embedding therefore applies both updates
  unconditionally.
-/

namespace CoffeeTool

/-- Resting status bands (`RestingStatus` in `types/api`). -/
inductive RestingStatus where
  | UNKNOWN
  | RESTING
  | READY
  | PAST_PEAK
deriving DecidableEq

/-- Bag lifecycle status (`bag_status` enum in the schema). -/
inductive BagStatus where
  | ACTIVE
  | ARCHIVED
deriving DecidableEq

/-- One field-level validation issue (`ValidationIssue` in `types/api`). -/
structure ValidationIssue where
  field : String
  message : String
deriving DecidableEq

/-- Outcome of `parseOptionalNumber` in the source: `null` for
`null`/`undefined`/`""`, `nan` for a non-finite parse, or a finite number. -/
inductive ParsedNumber where
  | null
  | nan
  | num (q : ℚ)
deriving DecidableEq

/-- Outcome of `new Date(x)` on a present raw date field. -/
inductive DateInput where
  | valid (ms : ℤ)
  | invalid
deriving DecidableEq

/-- Result of an HTTP handler: success body, a 400 `{errors}` payload, or a
404 `{error}` payload. -/
inductive HandlerResult (α : Type) where
  | ok (body : α)
  | invalid (errors : List ValidationIssue)
  | notFound (error : String)
deriving DecidableEq

/-- A stored bag row (`bags` table). -/
structure Bag where
  id : String
  userId : String
  coffeeName : String
  roaster : String
  origin : Option String
  process : Option String
  roastDate : Option ℤ
  notes : Option String
  status : BagStatus
  archivedAt : Option ℤ
  createdAt : ℤ
  updatedAt : ℤ
deriving DecidableEq

/-- A stored brew row (`brews` table). -/
structure Brew where
  id : String
  bagId : String
  method : String
  brewer : Option String
  grinder : Option String
  dose : Option ℚ
  grindSetting : Option ℚ
  waterAmount : Option ℚ
  rating : Option ℚ
  nutty : Option ℚ
  acidity : Option ℚ
  fruity : Option ℚ
  floral : Option ℚ
  sweetness : Option ℚ
  chocolate : Option ℚ
  isBest : Bool
  flavourNotes : Option String
  createdAt : ℤ
deriving DecidableEq

/-- The relational store visible to the handlers. -/
structure Store where
  bags : List Bag
  brews : List Brew
deriving DecidableEq

/-! ## Derived-fields module -/

/-- `computeRoastAgeDays` from the source, with `Date.now()` passed in as
`now` and the stored roast date as epoch milliseconds. -/
def computeRoastAgeDays (now : ℤ) (roastDate : Option ℤ) : Option ℤ :=
  match roastDate with
  | none => none
  | some t =>
    let millisecondsPerDay : ℤ := 24 * 60 * 60 * 1000
    let diffMs := now - t
    if diffMs < 0 then some 0 else some (diffMs / millisecondsPerDay)

/-- `computeRestingStatus` from the source. -/
def computeRestingStatus (roastAgeDays : Option ℤ) : RestingStatus :=
  match roastAgeDays with
  | none => .UNKNOWN
  | some n =>
    if n ≤ 3 then .RESTING
    else if n ≤ 21 then .READY
    else .PAST_PEAK

/-- `buildBagComputedFields` from the source. -/
def buildBagComputedFields (now : ℤ) (roastDate : Option ℤ) :
    Option ℤ × RestingStatus :=
  let roastAgeDays := computeRoastAgeDays now roastDate
  (roastAgeDays, computeRestingStatus roastAgeDays)

/-! ## Validation module -/

/-- JavaScript truthiness of an optional string request field: absent
(`undefined`/`null`) and the empty string are falsy. -/
def isFalsyStr : Option String → Bool
  | none => true
  | some s => s == ""

/-- `parseOptionalIntegerInRange` from the source.  The record it returns is
modelled as a pair `(value, issue)`. -/
def parseOptionalIntegerInRange (value : ParsedNumber) (fieldName : String)
    (min max : ℤ) : Option ℚ × Option ValidationIssue :=
  match value with
  | .nan => (none, some ⟨fieldName, "must be a number"⟩)
  | .null => (none, none)
  | .num parsed =>
    if parsed.den ≠ 1 then
      (none, some ⟨fieldName, "must be an integer"⟩)
    else if parsed < (min : ℚ) ∨ (max : ℚ) < parsed then
      (none, some ⟨fieldName, "must be between " ++ toString min ++ " and " ++ toString max⟩)
    else (some parsed, none)

/-- `parseOptionalNumberInRange` from the source (no integrality check). -/
def parseOptionalNumberInRange (value : ParsedNumber) (fieldName : String)
    (min max : ℤ) : Option ℚ × Option ValidationIssue :=
  match value with
  | .nan => (none, some ⟨fieldName, "must be a number"⟩)
  | .null => (none, none)
  | .num parsed =>
    if parsed < (min : ℚ) ∨ (max : ℚ) < parsed then
      (none, some ⟨fieldName, "must be between " ++ toString min ++ " and " ++ toString max⟩)
    else (some parsed, none)

/-! ## Request bodies -/

/-- Request body of `POST /bags` (after `new Date` parsing of `roastDate`;
`none` on the date field covers the falsy raw values `undefined`/`null`/`""`). -/
structure BagCreateBody where
  coffeeName : Option String
  roaster : Option String
  origin : Option String
  process : Option String
  roastDate : Option DateInput
  notes : Option String
deriving DecidableEq

/-- Request body of `POST /bags/:id/brews`. -/
structure BrewCreateBody where
  method : Option String
  brewer : Option String
  grinder : Option String
  dose : ParsedNumber
  grindSetting : ParsedNumber
  waterAmount : ParsedNumber
  rating : ParsedNumber
  nutty : ParsedNumber
  acidity : ParsedNumber
  fruity : ParsedNumber
  floral : ParsedNumber
  sweetness : ParsedNumber
  chocolate : ParsedNumber
  flavourNotes : Option String
deriving DecidableEq

/-- Request body of `PATCH /bags/:id`: each field is `none` when absent
(`undefined`); `roastDate`, when present, carries its `new Date` outcome. -/
structure BagPatchBody where
  coffeeName : Option String
  roaster : Option String
  origin : Option String
  process : Option String
  roastDate : Option DateInput
  notes : Option String
deriving DecidableEq

/-! ## Handlers -/

/-- `getOwnedBagById` from the source: first row whose id and owner match
(`rows[0] ?? null`). -/
def getOwnedBagById (s : Store) (bagId userId : String) : Option Bag :=
  ((s.bags.filter fun b => b.id == bagId && b.userId == userId)).head?

/-- The validation-issue list computed by the `POST /bags` handler for the
three required fields. -/
def bagRequiredIssues (body : BagCreateBody) : List ValidationIssue :=
  (if isFalsyStr body.coffeeName then [⟨"coffeeName", "is required"⟩] else []) ++
  (if isFalsyStr body.roaster then [⟨"roaster", "is required"⟩] else []) ++
  (if body.roastDate.isNone then [⟨"roastDate", "is required"⟩] else [])

/-- `POST /bags` handler.  `freshId` stands for `randomUUID()` and `now` for
the database `defaultNow()` timestamps. -/
def postBags (s : Store) (userId : String) (body : BagCreateBody)
    (freshId : String) (now : ℤ) : Store × HandlerResult Bag :=
  let issues := bagRequiredIssues body
  if issues ≠ [] then (s, .invalid issues)
  else
    match body.roastDate with
    | some .invalid => (s, .invalid [⟨"roastDate", "must be a valid date"⟩])
    | some (.valid ms) =>
      let bag : Bag :=
        { id := freshId
          userId := userId
          coffeeName := body.coffeeName.getD ""
          roaster := body.roaster.getD ""
          origin := body.origin
          process := body.process
          roastDate := some ms
          notes := body.notes
          status := .ACTIVE
          archivedAt := none
          createdAt := now
          updatedAt := now }
      ({ s with bags := s.bags ++ [bag] }, .ok bag)
    -- unreachable: an absent roastDate already produced an "is required"
    -- issue above (in JS, `new Date(undefined)` is an Invalid Date)
    | none => (s, .invalid [⟨"roastDate", "must be a valid date"⟩])

/-- The validation-issue list computed by the `POST /bags/:id/brews`
handler: the `method` required check followed by the ten per-field numeric
parse issues, filtered for non-null, in source order. -/
def brewValidationIssues (body : BrewCreateBody) : List ValidationIssue :=
  (if isFalsyStr body.method then [⟨"method", "is required"⟩] else []) ++
  ([(parseOptionalIntegerInRange body.dose "dose" 0 1000).2,
    (parseOptionalIntegerInRange body.grindSetting "grindSetting" 0 1000).2,
    (parseOptionalIntegerInRange body.waterAmount "waterAmount" 0 5000).2,
    (parseOptionalNumberInRange body.rating "rating" 0 5).2,
    (parseOptionalIntegerInRange body.nutty "nutty" 0 5).2,
    (parseOptionalIntegerInRange body.acidity "acidity" 0 5).2,
    (parseOptionalIntegerInRange body.fruity "fruity" 0 5).2,
    (parseOptionalIntegerInRange body.floral "floral" 0 5).2,
    (parseOptionalIntegerInRange body.sweetness "sweetness" 0 5).2,
    (parseOptionalIntegerInRange body.chocolate "chocolate" 0 5).2].filterMap id)

/-- `POST /bags/:id/brews` handler. -/
def postBrews (s : Store) (userId bagId : String) (body : BrewCreateBody)
    (freshId : String) (now : ℤ) : Store × HandlerResult Brew :=
  match getOwnedBagById s bagId userId with
  | none => (s, .notFound "Bag not found")
  | some _ =>
    let issues := brewValidationIssues body
    if issues ≠ [] then (s, .invalid issues)
    else
      let brew : Brew :=
        { id := freshId
          bagId := bagId
          method := body.method.getD ""
          brewer := body.brewer
          grinder := body.grinder
          dose := (parseOptionalIntegerInRange body.dose "dose" 0 1000).1
          grindSetting := (parseOptionalIntegerInRange body.grindSetting "grindSetting" 0 1000).1
          waterAmount := (parseOptionalIntegerInRange body.waterAmount "waterAmount" 0 5000).1
          rating := (parseOptionalNumberInRange body.rating "rating" 0 5).1
          nutty := (parseOptionalIntegerInRange body.nutty "nutty" 0 5).1
          acidity := (parseOptionalIntegerInRange body.acidity "acidity" 0 5).1
          fruity := (parseOptionalIntegerInRange body.fruity "fruity" 0 5).1
          floral := (parseOptionalIntegerInRange body.floral "floral" 0 5).1
          sweetness := (parseOptionalIntegerInRange body.sweetness "sweetness" 0 5).1
          chocolate := (parseOptionalIntegerInRange body.chocolate "chocolate" 0 5).1
          isBest := false
          flavourNotes := body.flavourNotes
          createdAt := now }
      ({ s with brews := s.brews ++ [brew] }, .ok brew)

/-- `PATCH /bags/:bagId/brews/:brewId/best` handler.  The drizzle
transaction commits whenever its callback returns normally and rolls back
only on a thrown exception; this callback returns normally on every path
(including `rows[0] ?? null` being `null`), so the clear-flags update and
the set-flag update always commit, even when the 404 is sent. -/
def markBest (s : Store) (userId bagId brewId : String) :
    Store × HandlerResult Brew :=
  match getOwnedBagById s bagId userId with
  | none => (s, .notFound "Bag not found")
  | some _ =>
    let cleared := s.brews.map fun br =>
      if br.bagId == bagId then { br with isBest := false } else br
    let afterSet := cleared.map fun br =>
      if br.id == brewId && br.bagId == bagId then { br with isBest := true } else br
    let updated := (afterSet.filter fun br =>
      br.id == brewId && br.bagId == bagId).head?
    ({ s with brews := afterSet },
      match updated with
      | none => .notFound "Brew not found"
      | some row => .ok row)

/-- The parameters of one completed best-brew operation. -/
structure BestOp where
  userId : String
  bagId : String
  brewId : String

/-- The store after a sequence of completed best-brew operations. -/
def applyBestOps (s : Store) (ops : List BestOp) : Store :=
  ops.foldl (fun st op => (markBest st op.userId op.bagId op.brewId).1) s

/-- At most one brew per bag is flagged best: no two entries of the brews
table in the same bag are both flagged. -/
def AtMostOneBest (s : Store) : Prop :=
  s.brews.Pairwise fun b1 b2 =>
    b1.bagId = b2.bagId → b1.isBest = true → b2.isBest = true → False

/-- Brew primary keys are unique (`id` is the primary key of `brews`). -/
def BrewIdsNodup (s : Store) : Prop := (s.brews.map (·.id)).Nodup

instance (s : Store) : Decidable (AtMostOneBest s) :=
  inferInstanceAs (Decidable (List.Pairwise _ _))

instance (s : Store) : Decidable (BrewIdsNodup s) :=
  inferInstanceAs (Decidable (List.Nodup _))

/-- A sample owned bag used in concrete instantiations. -/
def sampleBag : Bag :=
  ⟨"g1", "u1", "Gesha", "Roastery", none, none, some 0, none, .ACTIVE, none, 0, 0⟩

/-- A sample best-flagged brew in `sampleBag`. -/
def sampleBestBrew : Brew :=
  ⟨"b1", "g1", "V60", none, none, none, none, none, some 4, none, none, none,
   none, none, none, true, none, 0⟩

/-- Helper: the brews of the store after `markBest` on an owned bag are a
single map of the clear-then-set composite over the original brews. -/
lemma markBest_brews_eq (s : Store) (userId bagId brewId : String) (bag : Bag)
    (hbag : getOwnedBagById s bagId userId = some bag) :
    (markBest s userId bagId brewId).1.brews = s.brews.map fun br =>
      if br.id == brewId && br.bagId == bagId then { br with isBest := true }
      else if br.bagId == bagId then { br with isBest := false }
      else br := by
  simp only [markBest, hbag, List.map_map]
  apply List.map_congr_left
  intro br _
  by_cases hid : br.id == brewId <;> by_cases hbg : br.bagId == bagId <;>
    simp [Function.comp, hid, hbg]

/-- Helper: `markBest` never changes the list of brew ids. -/
lemma markBest_ids_eq (s : Store) (userId bagId brewId : String) :
    (markBest s userId bagId brewId).1.brews.map (·.id) = s.brews.map (·.id) := by
  cases hbag : getOwnedBagById s bagId userId with
  | none => simp [markBest, hbag]
  | some bag =>
    rw [markBest_brews_eq s userId bagId brewId bag hbag, List.map_map]
    apply List.map_congr_left
    intro br _
    by_cases hid : br.id == brewId <;> by_cases hbg : br.bagId == bagId <;>
      simp [Function.comp, hid, hbg]

/-- Helper: one `markBest` step preserves id uniqueness. -/
lemma markBest_nodup (s : Store) (userId bagId brewId : String)
    (h : BrewIdsNodup s) : BrewIdsNodup (markBest s userId bagId brewId).1 := by
  unfold BrewIdsNodup at h ⊢
  rw [markBest_ids_eq]
  exact h

/-- Helper: one `markBest` step preserves the at-most-one-best invariant. -/
lemma markBest_atMostOneBest (s : Store) (userId bagId brewId : String)
    (hids : BrewIdsNodup s) (hinv : AtMostOneBest s) :
    AtMostOneBest (markBest s userId bagId brewId).1 := by
  cases hbag : getOwnedBagById s bagId userId with
  | none =>
    unfold AtMostOneBest at hinv ⊢
    simp only [markBest, hbag]
    exact hinv
  | some bag =>
    unfold AtMostOneBest
    rw [markBest_brews_eq s userId bagId brewId bag hbag]
    rw [List.pairwise_map]
    unfold AtMostOneBest at hinv
    have hids' : s.brews.Pairwise (fun a b => a.id ≠ b.id) := by
      simpa [BrewIdsNodup, List.Nodup, List.pairwise_map] using hids
    refine (hinv.and hids').imp ?_
    rintro b1 b2 ⟨hrel, hne⟩ hbagEq h1best h2best
    by_cases h1i : (b1.id == brewId && b1.bagId == bagId) = true <;>
      by_cases h2i : (b2.id == brewId && b2.bagId == bagId) = true <;>
      by_cases h1b : (b1.bagId == bagId) = true <;>
      by_cases h2b : (b2.bagId == bagId) = true <;>
      simp_all [beq_iff_eq]

/-- C2: from any store with unique brew ids in which every bag has at most
one best-flagged brew, any sequence of completed best-brew operations
preserves the at-most-one-best-per-bag invariant; moreover brew creation
always inserts with `isBest = false`. -/
theorem atMostOneBest_preserved (s : Store) (ops : List BestOp)
    (hids : BrewIdsNodup s) (hinv : AtMostOneBest s) :
    AtMostOneBest (applyBestOps s ops) ∧
    (∀ (s' : Store) (userId bagId : String) (body : BrewCreateBody)
      (freshId : String) (now : ℤ) (st : Store) (br : Brew),
      postBrews s' userId bagId body freshId now = (st, .ok br) →
      br.isBest = false) := by
  constructor
  · induction ops generalizing s with
    | nil => exact hinv
    | cons op rest ih =>
      have h1 := markBest_nodup s op.userId op.bagId op.brewId hids
      have h2 := markBest_atMostOneBest s op.userId op.bagId op.brewId hids hinv
      exact ih _ h1 h2
  · intro s' userId bagId body freshId now st br h
    cases hbag : getOwnedBagById s' bagId userId with
    | none => simp [postBrews, hbag] at h
    | some bag =>
      by_cases hiss : brewValidationIssues body = [] <;>
        simp [postBrews, hbag, hiss] at h
      rw [← h.2]

/-- Witness for `atMostOneBest_preserved`: two ops on a two-brew store. -/
theorem atMostOneBest_preserved_witness :
    AtMostOneBest (applyBestOps ⟨[sampleBag], [sampleBestBrew,
      ⟨"b2", "g1", "Espresso", none, none, none, none, none, some 3, none,
       none, none, none, none, none, false, none, 1⟩]⟩
      [⟨"u1", "g1", "b2"⟩, ⟨"u1", "g1", "missing"⟩]) :=
  (atMostOneBest_preserved _ _ (by decide) (by decide)).1

/-- C1 (code bug): on a bag owning a best-flagged brew, marking a
nonexistent brew as best returns not-found but commits the flag-clearing
update: the store after the failed operation differs from the store before
it, and the previously best brew is no longer flagged. -/
theorem markBest_notFound_mutates_store :
    (markBest ⟨[sampleBag], [sampleBestBrew]⟩ "u1" "g1" "missing").2 =
      .notFound "Brew not found" ∧
    (markBest ⟨[sampleBag], [sampleBestBrew]⟩ "u1" "g1" "missing").1 ≠
      (⟨[sampleBag], [sampleBestBrew]⟩ : Store) ∧
    (markBest ⟨[sampleBag], [sampleBestBrew]⟩ "u1" "g1" "missing").1.brews =
      [{ sampleBestBrew with isBest := false }] := by
  refine ⟨by decide, by decide, by decide⟩

/-- Helper: an issue appears in the brew validation output iff it is the
`method` required-issue or one of the ten per-field parse issues; each
disjunct depends only on its own field. -/
lemma brewIssues_mem_iff (body : BrewCreateBody) (i : ValidationIssue) :
    i ∈ brewValidationIssues body ↔
      ((isFalsyStr body.method = true ∧ i = ⟨"method", "is required"⟩) ∨
       (parseOptionalIntegerInRange body.dose "dose" 0 1000).2 = some i ∨
       (parseOptionalIntegerInRange body.grindSetting "grindSetting" 0 1000).2 = some i ∨
       (parseOptionalIntegerInRange body.waterAmount "waterAmount" 0 5000).2 = some i ∨
       (parseOptionalNumberInRange body.rating "rating" 0 5).2 = some i ∨
       (parseOptionalIntegerInRange body.nutty "nutty" 0 5).2 = some i ∨
       (parseOptionalIntegerInRange body.acidity "acidity" 0 5).2 = some i ∨
       (parseOptionalIntegerInRange body.fruity "fruity" 0 5).2 = some i ∨
       (parseOptionalIntegerInRange body.floral "floral" 0 5).2 = some i ∨
       (parseOptionalIntegerInRange body.sweetness "sweetness" 0 5).2 = some i ∨
       (parseOptionalIntegerInRange body.chocolate "chocolate" 0 5).2 = some i) := by
  by_cases hm : isFalsyStr body.method <;>
    simp [brewValidationIssues, List.mem_filterMap, hm, eq_comm]

/-- C3 counterexample: field validation is not collect-all across the two
bag-creation phases — a request with `coffeeName` missing and a
present-but-unparseable `roastDate` returns only the "is required" issue;
the `{roastDate, must be a valid date}` issue its roastDate independently
deserves is dropped, because the required-field check returns first. -/
theorem validation_collects_all_counterexample :
    postBags ⟨[], []⟩ "u1" ⟨none, some "Roastery", none, none, some .invalid, none⟩
        "g1" 0 =
      ((⟨[], []⟩ : Store), .invalid [⟨"coffeeName", "is required"⟩]) ∧
    (ValidationIssue.mk "roastDate" "must be a valid date") ∉
      [ValidationIssue.mk "coffeeName" "is required"] := by
  exact ⟨by decide, by decide⟩

/-- C3 (amended: collect-all holds within each validation phase, and the
bag endpoint's roast-date parse check runs only after the required-field
phase passes): whenever any required bag field is missing, `POST /bags`
returns all the required-field issues together in one 400 with the store
untouched — exactly the three "is required" issues when `coffeeName`,
`roaster` and `roastDate` are all missing; an issue is in the brew
validation output iff the corresponding field's own independent check
produces it; and a brew request with three invalid numeric fields yields
exactly those three issues in one 400 response with the store untouched. -/
theorem validation_collects_all_issues :
    (∀ (s : Store) (userId : String) (body : BagCreateBody)
      (freshId : String) (now : ℤ), bagRequiredIssues body ≠ [] →
      postBags s userId body freshId now = (s, .invalid (bagRequiredIssues body))) ∧
    (∀ body : BagCreateBody, body.coffeeName = none → body.roaster = none →
      body.roastDate = none →
      bagRequiredIssues body =
        [⟨"coffeeName", "is required"⟩, ⟨"roaster", "is required"⟩,
         ⟨"roastDate", "is required"⟩]) ∧
    (∀ (body : BrewCreateBody) (i : ValidationIssue),
      i ∈ brewValidationIssues body ↔
        ((isFalsyStr body.method = true ∧ i = ⟨"method", "is required"⟩) ∨
         (parseOptionalIntegerInRange body.dose "dose" 0 1000).2 = some i ∨
         (parseOptionalIntegerInRange body.grindSetting "grindSetting" 0 1000).2 = some i ∨
         (parseOptionalIntegerInRange body.waterAmount "waterAmount" 0 5000).2 = some i ∨
         (parseOptionalNumberInRange body.rating "rating" 0 5).2 = some i ∨
         (parseOptionalIntegerInRange body.nutty "nutty" 0 5).2 = some i ∨
         (parseOptionalIntegerInRange body.acidity "acidity" 0 5).2 = some i ∨
         (parseOptionalIntegerInRange body.fruity "fruity" 0 5).2 = some i ∨
         (parseOptionalIntegerInRange body.floral "floral" 0 5).2 = some i ∨
         (parseOptionalIntegerInRange body.sweetness "sweetness" 0 5).2 = some i ∨
         (parseOptionalIntegerInRange body.chocolate "chocolate" 0 5).2 = some i)) ∧
    (∀ (s : Store) (userId bagId freshId : String) (now : ℤ) (bag : Bag),
      getOwnedBagById s bagId userId = some bag →
      postBrews s userId bagId
          ⟨some "V60", none, none, .num 1001, .null, .num 5001, .num 9,
           .null, .null, .null, .null, .null, .null, none⟩ freshId now =
        (s, .invalid
          [⟨"dose", "must be between 0 and 1000"⟩,
           ⟨"waterAmount", "must be between 0 and 5000"⟩,
           ⟨"rating", "must be between 0 and 5"⟩])) := by
  refine ⟨?_, ?_, brewIssues_mem_iff, ?_⟩
  · intro s userId body freshId now h
    unfold postBags
    rw [if_pos h]
  · intro body h1 h2 h3
    simp [bagRequiredIssues, h1, h2, h3, isFalsyStr]
  · intro s userId bagId freshId now bag hbag
    have hiss : brewValidationIssues
        ⟨some "V60", none, none, .num 1001, .null, .num 5001, .num 9,
         .null, .null, .null, .null, .null, .null, none⟩ =
        [⟨"dose", "must be between 0 and 1000"⟩,
         ⟨"waterAmount", "must be between 0 and 5000"⟩,
         ⟨"rating", "must be between 0 and 5"⟩] := by decide
    simp [postBrews, hbag, hiss]

/-- Witness for `validation_collects_all_issues`: the all-missing bag body
and a one-bag store for the brew part. -/
theorem validation_collects_all_issues_witness :
    (postBags ⟨[], []⟩ "u1" ⟨none, none, none, none, none, none⟩ "g1" 0 =
      ((⟨[], []⟩ : Store),
        .invalid (bagRequiredIssues ⟨none, none, none, none, none, none⟩))) ∧
    bagRequiredIssues ⟨none, none, none, none, none, none⟩ =
      [⟨"coffeeName", "is required"⟩, ⟨"roaster", "is required"⟩,
       ⟨"roastDate", "is required"⟩] ∧
    postBrews ⟨[⟨"g1", "u1", "Gesha", "Roastery", none, none, some 0, none,
        .ACTIVE, none, 0, 0⟩], []⟩ "u1" "g1"
      ⟨some "V60", none, none, .num 1001, .null, .num 5001, .num 9,
       .null, .null, .null, .null, .null, .null, none⟩ "b1" 0 =
      (⟨[⟨"g1", "u1", "Gesha", "Roastery", none, none, some 0, none,
         .ACTIVE, none, 0, 0⟩], []⟩, .invalid
        [⟨"dose", "must be between 0 and 1000"⟩,
         ⟨"waterAmount", "must be between 0 and 5000"⟩,
         ⟨"rating", "must be between 0 and 5"⟩]) :=
  ⟨validation_collects_all_issues.1 _ "u1" _ "g1" 0 (by decide),
   validation_collects_all_issues.2.1 _ rfl rfl rfl,
   validation_collects_all_issues.2.2.2 _ "u1" "g1" "b1" 0
     ⟨"g1", "u1", "Gesha", "Roastery", none, none, some 0, none, .ACTIVE, none, 0, 0⟩
     (by decide)⟩

/-- The rational number `1000.5` (as `2001/2` in lowest terms). -/
def oneThousandPointFive : ℚ := Rat.mk' 2001 2 (by decide) (by decide)

/-- C9 counterexample: `dose = 1000.5` is a number outside `[0, 1000]`, yet
the response issue is "must be an integer", not
"must be between 0 and 1000". -/
theorem dose_between_issue_counterexample :
    (postBrews ⟨[⟨"g1", "u1", "Gesha", "Roastery", none, none, some 0, none,
        .ACTIVE, none, 0, 0⟩], []⟩ "u1" "g1"
      ⟨some "V60", none, none, .num oneThousandPointFive, .null, .null, .null,
       .null, .null, .null, .null, .null, .null, none⟩ "b1" 0).2 =
      .invalid [⟨"dose", "must be an integer"⟩] ∧
    (ValidationIssue.mk "dose" "must be between 0 and 1000") ∉
      [ValidationIssue.mk "dose" "must be an integer"] := by
  constructor
  · decide
  · decide

/-- C9 (amended to integer doses): a brew-logging request on an owned bag
whose dose is an integer outside `[0, 1000]` yields a 400 response
containing the issue `{dose, must be between 0 and 1000}`, and the store is
unchanged (no brew inserted). -/
theorem dose_between_issue_amended (s : Store) (userId bagId : String)
    (body : BrewCreateBody) (freshId : String) (now : ℤ) (q : ℚ) (bag : Bag)
    (hbag : getOwnedBagById s bagId userId = some bag)
    (hdose : body.dose = .num q) (hint : q.den = 1)
    (hrange : q < 0 ∨ 1000 < q) :
    ∃ issues, postBrews s userId bagId body freshId now = (s, .invalid issues) ∧
      ⟨"dose", "must be between 0 and 1000"⟩ ∈ issues := by
  have hparse : (parseOptionalIntegerInRange body.dose "dose" 0 1000).2 =
      some ⟨"dose", "must be between 0 and 1000"⟩ := by
    rw [hdose]
    have hden : ¬ q.den ≠ 1 := by simp [hint]
    have hr : (q < ((0 : ℤ) : ℚ) ∨ ((1000 : ℤ) : ℚ) < q) := by
      push_cast
      exact hrange
    simp only [parseOptionalIntegerInRange]
    rw [if_neg hden, if_pos hr]
    decide
  have hmem : (⟨"dose", "must be between 0 and 1000"⟩ : ValidationIssue) ∈
      brewValidationIssues body :=
    (brewIssues_mem_iff body _).mpr (Or.inr (Or.inl hparse))
  have hne : brewValidationIssues body ≠ [] := List.ne_nil_of_mem hmem
  refine ⟨brewValidationIssues body, ?_, hmem⟩
  simp [postBrews, hbag, hne]

/-- Witness for `dose_between_issue_amended` at `dose = 1001`. -/
theorem dose_between_issue_amended_witness :
    ∃ issues,
      postBrews ⟨[⟨"g1", "u1", "Gesha", "Roastery", none, none, some 0, none,
          .ACTIVE, none, 0, 0⟩], []⟩ "u1" "g1"
        ⟨some "V60", none, none, .num 1001, .null, .null, .null,
         .null, .null, .null, .null, .null, .null, none⟩ "b1" 0 =
        (⟨[⟨"g1", "u1", "Gesha", "Roastery", none, none, some 0, none,
           .ACTIVE, none, 0, 0⟩], []⟩, .invalid issues) ∧
      ⟨"dose", "must be between 0 and 1000"⟩ ∈ issues :=
  dose_between_issue_amended _ "u1" "g1" _ "b1" 0 1001
    ⟨"g1", "u1", "Gesha", "Roastery", none, none, some 0, none, .ACTIVE, none, 0, 0⟩
    (by decide) rfl (by decide) (by norm_num)

/-- The SET record of the `PATCH /bags/:id` update applied to a matching
row `bg`.  The merge values come from the first matching row (`existing`),
mirroring `coffeeName || existing.coffeeName` (JS `||` keeps the existing
value on the empty string) and `origin || null`. -/
def patchUpdatedRow (existing bg : Bag) (body : BagPatchBody) (now : ℤ) : Bag :=
  { bg with
    updatedAt := now
    coffeeName :=
      match body.coffeeName with
      | none => bg.coffeeName
      | some v => if v == "" then existing.coffeeName else v
    roaster :=
      match body.roaster with
      | none => bg.roaster
      | some v => if v == "" then existing.roaster else v
    origin :=
      match body.origin with
      | none => bg.origin
      | some v => if v == "" then none else some v
    process :=
      match body.process with
      | none => bg.process
      | some v => if v == "" then none else some v
    notes :=
      match body.notes with
      | none => bg.notes
      | some v => if v == "" then none else some v
    roastDate :=
      match body.roastDate with
      | some (.valid ms) => some ms
      -- the `.invalid` case is unreachable: the handler returns 400 first
      | _ => bg.roastDate }

/-- `PATCH /bags/:id` handler: ownership check, roast-date validity check,
field merge, update with returning. -/
def patchBag (s : Store) (userId bagId : String) (body : BagPatchBody)
    (now : ℤ) : Store × HandlerResult Bag :=
  match getOwnedBagById s bagId userId with
  | none => (s, .notFound "Bag not found")
  | some existing =>
    if body.roastDate = some .invalid then
      (s, .invalid [⟨"roastDate", "must be a valid date"⟩])
    else
      let newBags := s.bags.map fun bg =>
        if bg.id == bagId && bg.userId == userId then
          patchUpdatedRow existing bg body now
        else bg
      let updated := (newBags.filter fun bg =>
        bg.id == bagId && bg.userId == userId).head?
      ({ s with bags := newBags },
        match updated with
        | none => .notFound "Bag not found"
        | some row => .ok row)

/-- C10 counterexample: a PATCH on an owned bag whose body has
`coffeeName = ""` does not always respond 200 — with an unparseable
`roastDate` in the same body it responds 400. -/
theorem patchBag_empty_string_counterexample :
    patchBag ⟨[sampleBag], []⟩ "u1" "g1"
      ⟨some "", none, none, none, some .invalid, none⟩ 5 =
      (⟨[sampleBag], []⟩, .invalid [⟨"roastDate", "must be a valid date"⟩]) := by
  decide

/-- C10 (amended with a parseable-roast-date proviso): a PATCH on an owned
bag never emits an "is required" issue; and when the body's `roastDate`, if
present, is a valid date, the handler responds 200 and an empty-string
`coffeeName` (or `roaster`) leaves the stored value unchanged. -/
theorem patchBag_empty_string_keeps_value (s : Store) (userId bagId : String)
    (body : BagPatchBody) (now : ℤ) (existing : Bag)
    (hbag : getOwnedBagById s bagId userId = some existing) :
    (∀ issues, (patchBag s userId bagId body now).2 = .invalid issues →
      ∀ i ∈ issues, i.message ≠ "is required") ∧
    (body.roastDate ≠ some .invalid →
      ∃ b', (patchBag s userId bagId body now).2 = .ok b' ∧
        getOwnedBagById (patchBag s userId bagId body now).1 bagId userId = some b' ∧
        (body.coffeeName = some "" → b'.coffeeName = existing.coffeeName) ∧
        (body.roaster = some "" → b'.roaster = existing.roaster)) := by
  have hp : ∀ bg : Bag,
      (((if (bg.id == bagId && bg.userId == userId) = true then
          patchUpdatedRow existing bg body now else bg).id == bagId &&
        (if (bg.id == bagId && bg.userId == userId) = true then
          patchUpdatedRow existing bg body now else bg).userId == userId)) =
      (bg.id == bagId && bg.userId == userId) := by
    intro bg
    by_cases h : (bg.id == bagId && bg.userId == userId) = true <;>
      simp [h, patchUpdatedRow]
  have hbag' : (s.bags.filter fun bg =>
      bg.id == bagId && bg.userId == userId).head? = some existing := hbag
  have hmem : existing ∈ s.bags.filter fun bg =>
      bg.id == bagId && bg.userId == userId :=
    List.mem_of_mem_head? (Option.mem_def.mpr hbag')
  have hpx : (existing.id == bagId && existing.userId == userId) = true :=
    (List.mem_filter.mp hmem).2
  constructor
  · intro issues h2 i hi
    revert h2
    simp only [patchBag, hbag]
    by_cases hd : body.roastDate = some .invalid
    · rw [if_pos hd]
      intro h2
      simp at h2
      rw [← h2] at hi
      simp at hi
      rw [hi]
      decide
    · rw [if_neg hd]
      cases hu : ((s.bags.map fun bg =>
          if (bg.id == bagId && bg.userId == userId) = true then
            patchUpdatedRow existing bg body now else bg).filter fun bg =>
          bg.id == bagId && bg.userId == userId).head? with
      | none => intro h2; simp [hu] at h2
      | some row => intro h2; simp [hu] at h2
  · intro hd
    refine ⟨patchUpdatedRow existing existing body now, ?_⟩
    have hhead : ((s.bags.map fun bg =>
        if (bg.id == bagId && bg.userId == userId) = true then
          patchUpdatedRow existing bg body now else bg).filter fun bg =>
        bg.id == bagId && bg.userId == userId).head? =
        some (patchUpdatedRow existing existing body now) := by
      rw [List.filter_map]
      have hfeq : ((fun bg : Bag => bg.id == bagId && bg.userId == userId) ∘
          (fun bg => if (bg.id == bagId && bg.userId == userId) = true then
            patchUpdatedRow existing bg body now else bg)) =
          fun bg : Bag => bg.id == bagId && bg.userId == userId := by
        funext bg
        exact hp bg
      rw [hfeq, List.head?_map, hbag']
      show some (if (existing.id == bagId && existing.userId == userId) = true then
        patchUpdatedRow existing existing body now else existing) = _
      rw [if_pos hpx]
    have hdf : (body.roastDate = some DateInput.invalid) = False := eq_false hd
    have hres : patchBag s userId bagId body now =
        ({ s with bags := s.bags.map fun bg =>
            if (bg.id == bagId && bg.userId == userId) = true then
              patchUpdatedRow existing bg body now else bg },
          .ok (patchUpdatedRow existing existing body now)) := by
      simp only [patchBag, hbag, hdf, if_false, hhead]
    refine ⟨?_, ?_, ?_, ?_⟩
    · rw [hres]
    · rw [hres]
      exact hhead
    · intro hc
      simp [patchUpdatedRow, hc]
    · intro hr
      simp [patchUpdatedRow, hr]

/-- Witness for `patchBag_empty_string_keeps_value`: blanking `coffeeName`
on `sampleBag` keeps `"Gesha"`. -/
theorem patchBag_empty_string_keeps_value_witness :
    ∃ b', (patchBag ⟨[sampleBag], []⟩ "u1" "g1"
        ⟨some "", none, none, none, none, none⟩ 5).2 = .ok b' ∧
      getOwnedBagById (patchBag ⟨[sampleBag], []⟩ "u1" "g1"
        ⟨some "", none, none, none, none, none⟩ 5).1 "g1" "u1" = some b' ∧
      ((some "" : Option String) = some "" → b'.coffeeName = sampleBag.coffeeName) ∧
      ((none : Option String) = some "" → b'.roaster = sampleBag.roaster) :=
  (patchBag_empty_string_keeps_value _ "u1" "g1"
      ⟨some "", none, none, none, none, none⟩ 5 sampleBag (by decide)).2
    (by decide)

/-! ## Analytics (`GET /bags/:id/analytics`) -/

/-- The `average` helper of the analytics handler:
`values.length ? Number((values.reduce((sum, value) => sum + value, 0) / values.length).toFixed(2)) : null`.
`toFixed(2)` is idealised over `ℚ` as rounding to the nearest hundredth
(half up, matching `toFixed` on the non-negative values the handler feeds
it). -/
def average (values : List ℚ) : Option ℚ :=
  if values.length ≠ 0 then
    some (((round ((values.foldl (· + ·) 0 / (values.length : ℚ)) * 100) : ℤ) : ℚ) / 100)
  else none

/-- `rows.map(row => row.f).filter(value => value !== null)`. -/
def nonNullValues (f : Brew → Option ℚ) (rows : List Brew) : List ℚ :=
  (rows.map f).filterMap id

/-- Average of one numeric analytics field over a brew list. -/
def analyticsFieldAverage (f : Brew → Option ℚ) (rows : List Brew) : Option ℚ :=
  average (nonNullValues f rows)

/-- The seven averaged brew fields of the analytics payload: `rating` and
the six taste dimensions. -/
def analyticsFieldAccessors : List (Brew → Option ℚ) :=
  [fun b => b.rating, fun b => b.nutty, fun b => b.acidity, fun b => b.fruity,
   fun b => b.floral, fun b => b.sweetness, fun b => b.chocolate]

/-- The `averageTasteProfile` object of the analytics payload. -/
structure TasteProfileAverages where
  nutty : Option ℚ
  acidity : Option ℚ
  fruity : Option ℚ
  floral : Option ℚ
  sweetness : Option ℚ
  chocolate : Option ℚ
deriving DecidableEq

/-- One `ratingTrend` entry. -/
structure RatingTrendPoint where
  brewNumber : ℕ
  rating : ℚ
  createdAt : ℤ
deriving DecidableEq

/-- The `AnalyticsResponse` payload. -/
structure AnalyticsPayload where
  bagId : String
  roastAgeDays : Option ℤ
  restingStatus : RestingStatus
  totalBrews : ℕ
  averageRating : Option ℚ
  averageTasteProfile : TasteProfileAverages
  brewMethods : List (String × ℕ)
  ratingTrend : List RatingTrendPoint
  bestBrew : Option Brew
deriving DecidableEq

/-- The method histogram built with a JS `Map` (first-occurrence insertion
order, counts incremented in place). -/
def brewMethodCounts (rows : List Brew) : List (String × ℕ) :=
  rows.foldl (fun acc row =>
    if acc.any (fun e => e.1 == row.method) then
      acc.map (fun e => if e.1 == row.method then (e.1, e.2 + 1) else e)
    else acc ++ [(row.method, 1)]) []

/-- The `ratingTrend` list: rated brews in input order, numbered from 1. -/
def ratingTrendOf (rows : List Brew) : List RatingTrendPoint :=
  ((rows.filter fun r => r.rating.isSome).enum.map fun p =>
    ⟨p.1 + 1, p.2.rating.getD 0, p.2.createdAt⟩)

/-- The JS comparator of the `bestBrew` fallback sort:
`(b.rating ?? 0) - (a.rating ?? 0)`, ties by `b.createdAt - a.createdAt`. -/
def bestBrewCmp (a b : Brew) : ℚ :=
  if b.rating.getD 0 ≠ a.rating.getD 0 then b.rating.getD 0 - a.rating.getD 0
  else ((b.createdAt : ℚ) - (a.createdAt : ℚ))

/-- `a` sorts no later than `b` under the comparator (the order a stable
sort with `bestBrewCmp` realises). -/
def bestBrewLE (a b : Brew) : Bool := decide (bestBrewCmp a b ≤ 0)

/-- The `bestBrew` selection:
`rows.find(isBest) ?? rows.filter(rated).sort(cmp)[0] ?? null`. -/
def bestBrewOf (rows : List Brew) : Option Brew :=
  match rows.find? (fun r => r.isBest) with
  | some r => some r
  | none => ((rows.filter fun r => r.rating.isSome).mergeSort bestBrewLE).head?

/-- `GET /bags/:id/analytics` handler (reads only; no writes). -/
def getAnalytics (s : Store) (userId bagId : String) (now : ℤ) :
    Store × HandlerResult AnalyticsPayload :=
  match getOwnedBagById s bagId userId with
  | none => (s, .notFound "Bag not found")
  | some bag =>
    let rows := (s.brews.filter fun r => r.bagId == bagId).mergeSort fun a b =>
      decide (a.createdAt ≤ b.createdAt)
    (s, .ok
      { bagId := bagId
        roastAgeDays := computeRoastAgeDays now bag.roastDate
        restingStatus := computeRestingStatus (computeRoastAgeDays now bag.roastDate)
        totalBrews := rows.length
        averageRating := analyticsFieldAverage (fun b => b.rating) rows
        averageTasteProfile :=
          { nutty := analyticsFieldAverage (fun b => b.nutty) rows
            acidity := analyticsFieldAverage (fun b => b.acidity) rows
            fruity := analyticsFieldAverage (fun b => b.fruity) rows
            floral := analyticsFieldAverage (fun b => b.floral) rows
            sweetness := analyticsFieldAverage (fun b => b.sweetness) rows
            chocolate := analyticsFieldAverage (fun b => b.chocolate) rows }
        brewMethods := brewMethodCounts rows
        ratingTrend := ratingTrendOf rows
        bestBrew := bestBrewOf rows })

/-- C6: the analytics average of each of the seven numeric fields is the
arithmetic mean of the non-null values rounded to two decimal places, and
`null` (not `0`) on an empty value set. -/
theorem analytics_average_spec :
    average [] = none ∧
    (∀ values : List ℚ, values ≠ [] →
      average values =
        some (((round ((values.sum / (values.length : ℚ)) * 100) : ℤ) : ℚ) / 100)) ∧
    (∀ f ∈ analyticsFieldAccessors, ∀ rows : List Brew,
      (nonNullValues f rows = [] → analyticsFieldAverage f rows = none) ∧
      (nonNullValues f rows ≠ [] → analyticsFieldAverage f rows =
        some (((round (((nonNullValues f rows).sum /
          ((nonNullValues f rows).length : ℚ)) * 100) : ℤ) : ℚ) / 100))) := by
  have hmean : ∀ values : List ℚ, values ≠ [] →
      average values =
        some (((round ((values.sum / (values.length : ℚ)) * 100) : ℤ) : ℚ) / 100) := by
    intro values hne
    have hlen : values.length ≠ 0 := by simpa using hne
    simp only [average, hlen, ne_eq, not_false_eq_true, if_true]
    rw [← List.sum_eq_foldl]
  refine ⟨rfl, hmean, ?_⟩
  intro f _ rows
  constructor
  · intro he
    simp [analyticsFieldAverage, he, average]
  · intro hne
    exact hmean _ hne

/-- Witness for `analytics_average_spec`: a one-value list and the empty
rating field. -/
theorem analytics_average_spec_witness :
    (average [(4 : ℚ)] =
      some (((round ((([(4 : ℚ)].sum / ([(4 : ℚ)].length : ℚ)) * 100)) : ℤ) : ℚ) / 100)) ∧
    analyticsFieldAverage (fun b => b.rating) [] = none :=
  ⟨analytics_average_spec.2.1 [4] (by decide),
   (analytics_average_spec.2.2 (fun b => b.rating)
     (by unfold analyticsFieldAccessors; exact List.mem_cons_self _ _) []).1 rfl⟩

/-- Helper: the Boolean sort order realised by the comparator, spelled out:
higher rating first, ties by more recent creation time. -/
lemma bestBrewLE_iff (a b : Brew) : bestBrewLE a b = true ↔
    (b.rating.getD 0 < a.rating.getD 0 ∨
     (b.rating.getD 0 = a.rating.getD 0 ∧ b.createdAt ≤ a.createdAt)) := by
  unfold bestBrewLE bestBrewCmp
  by_cases h : b.rating.getD 0 = a.rating.getD 0
  · rw [if_neg (fun hn => hn h)]
    simp only [decide_eq_true_eq, sub_nonpos, Int.cast_le]
    constructor
    · intro hle
      exact Or.inr ⟨h, hle⟩
    · rintro (hlt | ⟨-, hle⟩)
      · exact absurd h (ne_of_lt hlt)
      · exact hle
  · rw [if_pos h]
    simp only [decide_eq_true_eq, sub_nonpos]
    constructor
    · intro hle
      exact Or.inl (lt_of_le_of_ne hle h)
    · rintro (hlt | ⟨heq, -⟩)
      · exact le_of_lt hlt
      · exact absurd heq h

/-- Helper: the comparator order is transitive. -/
lemma bestBrewLE_trans (a b c : Brew) (hab : bestBrewLE a b = true)
    (hbc : bestBrewLE b c = true) : bestBrewLE a c = true := by
  rw [bestBrewLE_iff] at hab hbc ⊢
  rcases hab with h1 | ⟨h1, h1c⟩ <;> rcases hbc with h2 | ⟨h2, h2c⟩
  · exact Or.inl (h2.trans h1)
  · exact Or.inl (h2 ▸ h1)
  · exact Or.inl (h1 ▸ h2)
  · exact Or.inr ⟨h2.trans h1, h2c.trans h1c⟩

/-- Helper: the comparator order is total. -/
lemma bestBrewLE_total (a b : Brew) :
    (bestBrewLE a b || bestBrewLE b a) = true := by
  rw [Bool.or_eq_true, bestBrewLE_iff, bestBrewLE_iff]
  rcases lt_trichotomy (b.rating.getD 0) (a.rating.getD 0) with h | h | h
  · exact Or.inl (Or.inl h)
  · rcases le_total b.createdAt a.createdAt with hc | hc
    · exact Or.inl (Or.inr ⟨h, hc⟩)
    · exact Or.inr (Or.inr ⟨h.symm, hc⟩)
  · exact Or.inr (Or.inl h)

/-- C7: the analytics `bestBrew` is a flagged brew when one exists;
otherwise a rated brew with maximal rating, ties broken by most recent
creation time; `null` when nothing is rated; and the analytics handler
never writes to the store. -/
theorem analytics_bestBrew_spec :
    (∀ rows : List Brew, (∃ r ∈ rows, r.isBest = true) →
      ∃ r, bestBrewOf rows = some r ∧ r.isBest = true) ∧
    (∀ rows : List Brew, (∀ r ∈ rows, r.isBest = false) →
      (∃ r ∈ rows, r.rating.isSome) →
      ∃ r, bestBrewOf rows = some r ∧ r ∈ rows ∧ r.rating.isSome ∧
        ∀ r' ∈ rows, r'.rating.isSome →
          r'.rating.getD 0 ≤ r.rating.getD 0 ∧
          (r'.rating.getD 0 = r.rating.getD 0 → r'.createdAt ≤ r.createdAt)) ∧
    (∀ rows : List Brew, (∀ r ∈ rows, r.isBest = false) →
      (∀ r ∈ rows, r.rating = none) → bestBrewOf rows = none) ∧
    (∀ (s : Store) (userId bagId : String) (now : ℤ),
      (getAnalytics s userId bagId now).1 = s) := by
  refine ⟨?_, ?_, ?_, ?_⟩
  · intro rows ⟨r0, hr0, hbest0⟩
    cases hf : rows.find? (fun r => r.isBest) with
    | none =>
      rw [List.find?_eq_none] at hf
      exact absurd hbest0 (by simpa using hf r0 hr0)
    | some r =>
      exact ⟨r, by simp [bestBrewOf, hf], List.find?_some hf⟩
  · intro rows hnone ⟨r0, hr0, hrated0⟩
    have hf : rows.find? (fun r => r.isBest) = none := by
      rw [List.find?_eq_none]
      intro x hx
      simp [hnone x hx]
    have hmem0 : r0 ∈ rows.filter fun r => r.rating.isSome :=
      List.mem_filter.mpr ⟨hr0, hrated0⟩
    have hperm : ((rows.filter fun r => r.rating.isSome).mergeSort bestBrewLE).Perm
        (rows.filter fun r => r.rating.isSome) :=
      List.mergeSort_perm _ _
    have hsorted : ((rows.filter fun r => r.rating.isSome).mergeSort
        bestBrewLE).Pairwise (fun a b => bestBrewLE a b = true) :=
      List.sorted_mergeSort bestBrewLE_trans bestBrewLE_total _
    cases hms : (rows.filter fun r => r.rating.isSome).mergeSort bestBrewLE with
    | nil =>
      rw [hms] at hperm
      exact absurd (hperm.symm.mem_iff.mp hmem0) (List.not_mem_nil r0)
    | cons r tail =>
      have hrmem : r ∈ rows.filter fun x => x.rating.isSome :=
        hperm.mem_iff.mp (hms ▸ List.mem_cons_self r tail)
      have hrrows := List.mem_filter.mp hrmem
      refine ⟨r, by simp [bestBrewOf, hf, hms], hrrows.1, hrrows.2, ?_⟩
      intro r' hr' hrated'
      have hmem' : r' ∈ rows.filter fun x => x.rating.isSome :=
        List.mem_filter.mpr ⟨hr', hrated'⟩
      have : r' ∈ r :: tail := hms ▸ hperm.mem_iff.mpr hmem'
      rcases List.mem_cons.mp this with rfl | htail
      · exact ⟨le_refl _, fun _ => le_refl _⟩
      · have hsorted' : List.Pairwise (fun a b => bestBrewLE a b = true)
            (r :: tail) := hms ▸ hsorted
        have hle : bestBrewLE r r' = true :=
          List.rel_of_pairwise_cons hsorted' htail
        rw [bestBrewLE_iff] at hle
        rcases hle with hlt | ⟨heq, hcle⟩
        · exact ⟨le_of_lt hlt, fun he => absurd he (ne_of_lt hlt)⟩
        · exact ⟨le_of_eq heq, fun _ => hcle⟩
  · intro rows hnone hunrated
    have hf : rows.find? (fun r => r.isBest) = none := by
      rw [List.find?_eq_none]
      intro x hx
      simp [hnone x hx]
    have hfil : rows.filter (fun r => r.rating.isSome) = [] := by
      rw [List.filter_eq_nil_iff]
      intro x hx
      simp [hunrated x hx]
    simp [bestBrewOf, hf, hfil]
  · intro s userId bagId now
    cases hbag : getOwnedBagById s bagId userId <;> simp [getAnalytics, hbag]

/-- Witness for `analytics_bestBrew_spec`: the fallback picks the 5-rated
brew over the 4-rated one when nothing is flagged. -/
theorem analytics_bestBrew_spec_witness :
    ∃ r, bestBrewOf
        [⟨"b1", "g1", "V60", none, none, none, none, none, some 4, none, none,
          none, none, none, none, false, none, 0⟩,
         ⟨"b2", "g1", "Espresso", none, none, none, none, none, some 5, none,
          none, none, none, none, none, false, none, 1⟩] = some r ∧
      r ∈ [⟨"b1", "g1", "V60", none, none, none, none, none, some 4, none, none,
          none, none, none, none, false, none, 0⟩,
         ⟨"b2", "g1", "Espresso", none, none, none, none, none, some 5, none,
          none, none, none, none, none, false, none, 1⟩] ∧ r.rating.isSome ∧
      ∀ r' ∈ [(⟨"b1", "g1", "V60", none, none, none, none, none, some 4, none,
          none, none, none, none, none, false, none, 0⟩ : Brew),
         ⟨"b2", "g1", "Espresso", none, none, none, none, none, some 5, none,
          none, none, none, none, none, false, none, 1⟩], r'.rating.isSome →
          r'.rating.getD 0 ≤ r.rating.getD 0 ∧
          (r'.rating.getD 0 = r.rating.getD 0 → r'.createdAt ≤ r.createdAt) :=
  analytics_bestBrew_spec.2.1 _ (by decide) (by decide)

/-! ## Global feed (`GET /feed/brews`, in `dist/app.js`) -/

/-- One row of the feed join (a brew joined with its bag). -/
structure FeedRow where
  brewId : String
  bagId : String
  userId : String
  coffeeName : String
  roaster : String
  method : String
  brewer : Option String
  grinder : Option String
  dose : Option ℚ
  grindSetting : Option ℚ
  waterAmount : Option ℚ
  rating : Option ℚ
  flavourNotes : Option String
  isBest : Bool
  createdAt : ℤ
deriving DecidableEq

/-- The selected columns of the feed join. -/
def mkFeedRow (br : Brew) (bg : Bag) : FeedRow :=
  ⟨br.id, br.bagId, bg.userId, bg.coffeeName, bg.roaster, br.method, br.brewer,
   br.grinder, br.dose, br.grindSetting, br.waterAmount, br.rating,
   br.flavourNotes, br.isBest, br.createdAt⟩

/-- The inner join `brews ⋈ bags` on `brews.bagId = bags.id`. -/
def feedJoin (s : Store) : List FeedRow :=
  s.brews.filterMap fun br =>
    (s.bags.find? fun bg => bg.id == br.bagId).map fun bg => mkFeedRow br bg

/-- `GET /feed/brews` handler from `dist/app.js`.  `limitRaw` is the
numeric parse of the `limit` query parameter; `none` covers the falsy raw
values (absent or empty string), mirroring
`limitRaw ? Number(limitRaw) : 50`. -/
def getFeedBrews (s : Store) (limitRaw : Option ℚ) :
    HandlerResult (List FeedRow) :=
  let parsedLimit : ℚ := match limitRaw with | none => 50 | some q => q
  if ¬ parsedLimit.den = 1 ∨ parsedLimit < 1 ∨ 200 < parsedLimit then
    .invalid [⟨"limit", "must be an integer between 1 and 200"⟩]
  else
    .ok (((feedJoin s).mergeSort fun a b =>
      decide (b.createdAt ≤ a.createdAt)).take parsedLimit.num.toNat)

/-- C8: an out-of-range or non-integer `limit` yields the 400 validation
result carrying no rows; an absent `limit` behaves as `limit = 50`; a valid
integer `limit ∈ [1, 200]` yields at most `limit` rows, drawn from all
brews of all users, sorted by creation time descending — strictly so when
creation times are pairwise distinct. -/
theorem feed_limit_spec :
    (∀ (s : Store) (q : ℚ), (¬ q.den = 1 ∨ q < 1 ∨ 200 < q) →
      getFeedBrews s (some q) =
        .invalid [⟨"limit", "must be an integer between 1 and 200"⟩]) ∧
    (∀ s : Store, getFeedBrews s none = getFeedBrews s (some 50)) ∧
    (∀ (s : Store) (q : ℚ), q.den = 1 → 1 ≤ q → q ≤ 200 →
      ∃ rows, getFeedBrews s (some q) = .ok rows ∧
        rows.length ≤ q.num.toNat ∧
        rows.Pairwise (fun a b => b.createdAt ≤ a.createdAt) ∧
        ((s.brews.map fun br => br.createdAt).Nodup →
          rows.Pairwise (fun a b => b.createdAt < a.createdAt)) ∧
        ∀ r ∈ rows, ∃ br ∈ s.brews, ∃ bg ∈ s.bags,
          bg.id = br.bagId ∧ r = mkFeedRow br bg) := by
  refine ⟨?_, ?_, ?_⟩
  · intro s q hbad
    simp only [getFeedBrews, if_pos hbad]
  · intro s
    rfl
  · intro s q hden h1 h200
    have hcond : ¬ (¬ q.den = 1 ∨ q < 1 ∨ 200 < q) := by
      push_neg
      exact ⟨hden, h1, h200⟩
    have hsorted : ((feedJoin s).mergeSort fun a b =>
        decide (b.createdAt ≤ a.createdAt)).Pairwise
        (fun a b => (decide (b.createdAt ≤ a.createdAt)) = true) :=
      List.sorted_mergeSort
        (fun a b c hab hbc => by
          simp only [decide_eq_true_eq] at hab hbc ⊢
          exact le_trans hbc hab)
        (fun a b => by
          rcases le_total b.createdAt a.createdAt with h | h <;> simp [h])
        (feedJoin s)
    have hperm : ((feedJoin s).mergeSort fun a b =>
        decide (b.createdAt ≤ a.createdAt)).Perm (feedJoin s) :=
      List.mergeSort_perm _ _
    refine ⟨((feedJoin s).mergeSort fun a b =>
        decide (b.createdAt ≤ a.createdAt)).take q.num.toNat,
      by simp only [getFeedBrews, if_neg hcond], ?_, ?_, ?_, ?_⟩
    · rw [List.length_take]
      exact min_le_left _ _
    · exact List.Pairwise.sublist (List.take_sublist _ _)
        (hsorted.imp fun h => by simpa using h)
    · intro hnd
      have hbrews : s.brews.Pairwise fun a b => a.createdAt ≠ b.createdAt := by
        simpa [List.Nodup, List.pairwise_map] using hnd
      have hjoin : (feedJoin s).Pairwise fun a b => a.createdAt ≠ b.createdAt := by
        rw [feedJoin, List.pairwise_filterMap]
        refine hbrews.imp ?_
        intro a b hne r hr r' hr'
        obtain ⟨bg, -, hmk⟩ := Option.map_eq_some'.mp (Option.mem_def.mp hr)
        obtain ⟨bg', -, hmk'⟩ := Option.map_eq_some'.mp (Option.mem_def.mp hr')
        rw [← hmk, ← hmk']
        exact hne
      have hms : ((feedJoin s).mergeSort fun a b =>
          decide (b.createdAt ≤ a.createdAt)).Pairwise
          fun a b => a.createdAt ≠ b.createdAt :=
        (hperm.pairwise_iff fun h => h.symm).mpr hjoin
      have hboth := List.Pairwise.sublist (List.take_sublist q.num.toNat _)
        (hsorted.and hms)
      refine hboth.imp ?_
      rintro a b ⟨hle, hne⟩
      simp only [decide_eq_true_eq] at hle
      exact lt_of_le_of_ne hle (fun he => hne he.symm)
    · intro r hr
      have hr1 : r ∈ (feedJoin s).mergeSort fun a b =>
          decide (b.createdAt ≤ a.createdAt) :=
        (List.take_sublist _ _).subset hr
      have hr2 : r ∈ feedJoin s := hperm.mem_iff.mp hr1
      obtain ⟨br, hbr, hmap⟩ := List.mem_filterMap.mp hr2
      obtain ⟨bg, hfind, hmk⟩ := Option.map_eq_some'.mp hmap
      have hbeq := List.find?_some hfind
      simp only [beq_iff_eq] at hbeq
      exact ⟨br, hbr, bg, List.mem_of_find?_eq_some hfind, hbeq, hmk.symm⟩

/-- Witness for `feed_limit_spec`: `limit = 0` is rejected, `limit = 2`
accepted. -/
theorem feed_limit_spec_witness :
    getFeedBrews ⟨[], []⟩ (some 0) =
      .invalid [⟨"limit", "must be an integer between 1 and 200"⟩] ∧
    ∃ rows, getFeedBrews ⟨[], []⟩ (some 2) = .ok rows ∧
      rows.length ≤ (2 : ℚ).num.toNat ∧
      rows.Pairwise (fun a b => b.createdAt ≤ a.createdAt) ∧
      ((([] : List Brew).map fun br => br.createdAt).Nodup →
        rows.Pairwise (fun a b => b.createdAt < a.createdAt)) ∧
      ∀ r ∈ rows, ∃ br ∈ ([] : List Brew), ∃ bg ∈ ([] : List Bag),
        bg.id = br.bagId ∧ r = mkFeedRow br bg :=
  ⟨feed_limit_spec.1 ⟨[], []⟩ 0 (by norm_num),
   feed_limit_spec.2.2 ⟨[], []⟩ 2 (by decide) (by norm_num) (by norm_num)⟩

/-- C4: `computeRestingStatus` maps `null` to `UNKNOWN`, ages `≤ 3` to
`RESTING`, ages in `(3, 21]` to `READY`, ages `> 21` to `PAST_PEAK`, and in
particular `3 ↦ RESTING`, `4, 21 ↦ READY`, `22 ↦ PAST_PEAK`. -/
theorem restingStatus_bands :
    computeRestingStatus none = .UNKNOWN ∧
    (∀ n : ℤ, n ≤ 3 → computeRestingStatus (some n) = .RESTING) ∧
    (∀ n : ℤ, 3 < n → n ≤ 21 → computeRestingStatus (some n) = .READY) ∧
    (∀ n : ℤ, 21 < n → computeRestingStatus (some n) = .PAST_PEAK) ∧
    computeRestingStatus (some 3) = .RESTING ∧
    computeRestingStatus (some 4) = .READY ∧
    computeRestingStatus (some 21) = .READY ∧
    computeRestingStatus (some 22) = .PAST_PEAK := by
  refine ⟨rfl, ?_, ?_, ?_, by decide, by decide, by decide, by decide⟩
  · intro n hn
    simp [computeRestingStatus, hn]
  · intro n h3 h21
    simp [computeRestingStatus, h21]
    omega
  · intro n h21
    have h3 : ¬ n ≤ 3 := by omega
    have h21' : ¬ n ≤ 21 := by omega
    simp [computeRestingStatus, h3, h21']

/-- Witness for `restingStatus_bands` at concrete ages. -/
theorem restingStatus_bands_witness :
    computeRestingStatus (some 2) = .RESTING ∧
    computeRestingStatus (some 10) = .READY ∧
    computeRestingStatus (some 30) = .PAST_PEAK :=
  ⟨restingStatus_bands.2.1 2 (by decide),
   restingStatus_bands.2.2.1 10 (by decide) (by decide),
   restingStatus_bands.2.2.2.1 30 (by decide)⟩

/-- C5: roast age is `null` without a roast date, equals
`⌊(now - roastDate) / 86400000⌋` for roast dates not after `now`, and is
clamped to `0` for roast dates strictly in the future. -/
theorem roastAgeDays_spec (now : ℤ) :
    computeRoastAgeDays now none = none ∧
    (∀ t : ℤ, t ≤ now →
      computeRoastAgeDays now (some t) = some ⌊((now - t : ℤ) : ℚ) / 86400000⌋) ∧
    (∀ t : ℤ, now < t → computeRoastAgeDays now (some t) = some 0) := by
  refine ⟨rfl, ?_, ?_⟩
  · intro t ht
    have hnonneg : ¬ (now - t < 0) := by omega
    have hcast : ((86400000 : ℚ)) = ((86400000 : ℕ) : ℚ) := by norm_num
    have hfloor : ⌊((now - t : ℤ) : ℚ) / 86400000⌋ = (now - t) / ((86400000 : ℕ) : ℤ) := by
      rw [hcast, Rat.floor_intCast_div_natCast]
    simp only [computeRoastAgeDays, hnonneg, if_false, hfloor]
    norm_num
  · intro t ht
    have hneg : now - t < 0 := by omega
    simp [computeRoastAgeDays, hneg]

/-- Witness for `roastAgeDays_spec`: a 100-day-old roast and a future roast. -/
theorem roastAgeDays_spec_witness :
    computeRoastAgeDays 8640000000 (some 0) = some ⌊((8640000000 - 0 : ℤ) : ℚ) / 86400000⌋ ∧
    computeRoastAgeDays 0 (some 1) = some 0 :=
  ⟨(roastAgeDays_spec 8640000000).2.1 0 (by decide),
   (roastAgeDays_spec 0).2.2 1 (by decide)⟩

end CoffeeTool
